import Mathlib

/-!
Verification of the `perfect-menu-print-orders` agent.

Shallow embedding of the agent's core (Go sources):
  * the ESC/POS rasterizer and thermal wire framing
    (`convertImageToESCPOS`, `resizeToWidth`, `sendToThermalPrinter`),
  * the job dispatcher (`handlePrintJob`, `sendFileToPrinter`),
  * the printer-registry merge (`utils.SavePrinters`),
  * the WebSocket session loop (`RunAgent`, `handleConnection`),
  * the subnet discovery scan (`DiscoverPrinters`).

All definitions are translated from the Go source; machine integers are
modelled as `Nat`/`Int` (Go `byte` conversions as `% 256`), Go `float64`
arithmetic in `resizeToWidth` is modelled by the exact rational values it
approximates (realised below with `Nat` division, see the doc comment there),
and I/O effects (socket writes, emitted WebSocket messages, dial attempts)
are reified as explicit event traces.
-/

namespace PrintOrders

/-- A pixel as seen by Go's `Color.RGBA()`: alpha-premultiplied 16-bit
color channels (each in `0 .. 0xFFFF`). -/
structure Pixel where
  r : Nat
  g : Nat
  b : Nat
deriving DecidableEq, Repr

/-- A decoded bitmap: dimensions plus the pixel read `img.At(x, y).RGBA()`.
`px x y` is only meaningful for `x < width`, `y < height` (the code never
reads outside the bounds). -/
structure Image where
  width : Nat
  height : Nat
  px : Nat → Nat → Pixel

/-- Sum of the three color channels (`r + g + b` in `convertImageToESCPOS`). -/
def sumRGB (p : Pixel) : Nat := p.r + p.g + p.b

/-- The luminance threshold of `convertImageToESCPOS`:
`gray := (r + g + b) / 3; bit = 1 iff gray < 0x8000` (dark pixels print). -/
def isDark (p : Pixel) : Bool := sumRGB p / 3 < 0x8000

/-- One raster byte, as assembled by the inner loop of
`convertImageToESCPOS`: for the byte at row `y`, column block `j`, the loop
visits `x = 8*j + k` for `k = 0 .. 7` and ORs `1 <<< (7 - k)` into the byte
when the pixel is dark (8 horizontal pixels per byte, MSB first). -/
def packRow (d : Nat → Bool) : Nat :=
  (List.range 8).foldl (fun acc k => if d k then acc ||| (1 <<< (7 - k)) else acc) 0

/-- The raster byte of `convertImageToESCPOS` at row `y`, column block `j`. -/
def rasterByte (img : Image) (y j : Nat) : Nat :=
  packRow (fun k => isDark (img.px (8 * j + k) y))

/-- The effective raster width of `convertImageToESCPOS`:
`if width%8 != 0 { width = width - (width % 8) }`. -/
def effectiveWidth (img : Image) : Nat :=
  if img.width % 8 ≠ 0 then img.width - img.width % 8 else img.width

/-- The `GS v 0` header bytes of `convertImageToESCPOS`:
`1D 76 30 00`, then `byte(rowBytes)`, `byte(rowBytes >> 8)`,
`byte(height)`, `byte(height >> 8)` (Go `byte(..)` conversion is `% 256`). -/
def escposHeader (rowBytes height : Nat) : List Nat :=
  [0x1D, 0x76, 0x30, 0x00,
   rowBytes % 256, (rowBytes >>> 8) % 256,
   height % 256, (height >>> 8) % 256]

/-- The flat raster array filled by the nested loop of
`convertImageToESCPOS`: `rowBytes*height` bytes, the byte written at flat
index `y*rowBytes + x/8` being the byte of row `y`, column block `x/8`
(so the byte at flat index `idx` is `rasterByte img (idx / rowBytes)
(idx % rowBytes)`). -/
def escposRaster (img : Image) : List Nat :=
  let rowBytes := effectiveWidth img / 8
  (List.range (rowBytes * img.height)).map
    (fun idx => rasterByte img (idx / rowBytes) (idx % rowBytes))

/-- `convertImageToESCPOS` (services, latest revision): the `GS v 0`
header followed by the raster bytes. -/
def convertImageToESCPOS (img : Image) : List Nat :=
  escposHeader (effectiveWidth img / 8) img.height ++ escposRaster img

/-- `resizeToWidth` (nearest-neighbor resize).  The Go code computes
`scale = float64(targetWidth)/float64(w)`, `newHeight = int(float64(h)*scale)`,
and samples `sx = int(float64(x)/scale)`, `sy = int(float64(y)/scale)`.
With exact arithmetic these are `⌊h*targetWidth/w⌋`, `⌊x*w/targetWidth⌋`
and `⌊y*w/targetWidth⌋`, which is how the `float64` operations are
modelled here (`Nat` division is floor division; `int()` truncation on
nonnegative values is the floor). -/
def resizeToWidth (src : Image) (targetWidth : Nat) : Image :=
  let w := src.width
  let h := src.height
  let newHeight := h * targetWidth / w
  { width := targetWidth
    height := newHeight
    px := fun x y => src.px (x * w / targetWidth) (y * w / targetWidth) }

/-- `model.Printer` (latest revision, with `type` and `size`). -/
structure Printer where
  name : String
  ip : String
  port : Int
  description : String
  isEnabled : Bool
  tenantID : Int
  restaurantID : Int
  agentKey : String
  type : String
  size : Int
deriving DecidableEq, Repr

/-- The byte stream assembled and written to the raw TCP socket by
`sendToThermalPrinter`: `ESC @` (`1B 40`), the ESC/POS image data for the
bitmap resized to the constant width 384 (`resizeToWidth(img, 384)`),
`ESC d 3` (`1B 64 03`), `GS V A 0` (`1D 56 41 00`).  The printer record
is used only for the socket address `p.IP:p.Port`; in particular its
`size` field never influences the bytes. -/
def sendToThermalPrinterBytes (_p : Printer) (img : Image) : List Nat :=
  [0x1B, 0x40] ++ convertImageToESCPOS (resizeToWidth img 384)
    ++ [0x1B, 0x64, 0x03] ++ [0x1D, 0x56, 0x41, 0x00]

/-! ### Bit-level facts about the packed raster bytes -/

theorem packRow_eq_getD (d : Nat → Bool) :
    packRow d =
      packRow (fun i => [d 0, d 1, d 2, d 3, d 4, d 5, d 6, d 7].getD i false) := rfl

theorem packRow_getD_testBit (b0 b1 b2 b3 b4 b5 b6 b7 : Bool) :
    ∀ k, k < 8 →
      ((packRow (fun i => [b0, b1, b2, b3, b4, b5, b6, b7].getD i false)).testBit (7 - k)
        = [b0, b1, b2, b3, b4, b5, b6, b7].getD k false) := by
  cases b0 <;> cases b1 <;> cases b2 <;> cases b3 <;>
    cases b4 <;> cases b5 <;> cases b6 <;> cases b7 <;> decide

/-- Bit `7 - k` of a packed raster byte is the `k`-th of its 8 input bits
(MSB-first packing). -/
theorem packRow_testBit (d : Nat → Bool) (k : Nat) (hk : k < 8) :
    (packRow d).testBit (7 - k) = d k := by
  rw [packRow_eq_getD d, packRow_getD_testBit _ _ _ _ _ _ _ _ k hk]
  interval_cases k <;> rfl

/-- A packed raster byte depends only on its 8 input bits. -/
theorem packRow_congr {d d' : Nat → Bool} (h : ∀ k, k < 8 → d k = d' k) :
    packRow d = packRow d' := by
  rw [packRow_eq_getD d, packRow_eq_getD d']
  rw [h 0 (by omega), h 1 (by omega), h 2 (by omega), h 3 (by omega),
      h 4 (by omega), h 5 (by omega), h 6 (by omega), h 7 (by omega)]

/-- The dark test equals the spec's luminance rule: the integer average
`(r+g+b)/3` is below `0x8000` exactly when the exact channel average is
below the midpoint of the 16-bit channel range, i.e. `r+g+b < 3*0x8000`. -/
theorem isDark_iff (p : Pixel) : isDark p = true ↔ sumRGB p < 3 * 0x8000 := by
  simp only [isDark, sumRGB, decide_eq_true_iff]
  omega

theorem escposRaster_length (img : Image) :
    (escposRaster img).length = (effectiveWidth img / 8) * img.height := by
  simp [escposRaster]

/-- The byte of `escposRaster` addressed at row `y`, column block `x/8`. -/
theorem escposRaster_getD (img : Image) (x y : Nat)
    (hx : x < effectiveWidth img) (hy : y < img.height) :
    (escposRaster img).getD (y * (effectiveWidth img / 8) + x / 8) 0
      = rasterByte img y (x / 8) := by
  set rb := effectiveWidth img / 8 with hrb
  have h8 : 8 * rb = effectiveWidth img := by
    rw [hrb]
    unfold effectiveWidth
    split <;> omega
  have hxr : x / 8 < rb := by
    rw [Nat.div_lt_iff_lt_mul (by norm_num)]
    omega
  have hidx : y * rb + x / 8 < rb * img.height := by
    calc y * rb + x / 8 < y * rb + rb := by omega
    _ = (y + 1) * rb := by ring
    _ ≤ img.height * rb := Nat.mul_le_mul_right rb hy
    _ = rb * img.height := Nat.mul_comm _ _
  have hlen : y * rb + x / 8 < (escposRaster img).length := by
    rw [escposRaster_length img]; exact hidx
  rw [List.getD_eq_getElem _ _ hlen]
  unfold escposRaster
  simp only [List.getElem_map, List.getElem_range]
  congr 1
  · rw [show y * rb + x / 8 = x / 8 + rb * y by ring]
    rw [Nat.add_mul_div_left _ _ (by omega : 0 < rb), Nat.div_eq_of_lt hxr]
    omega
  · rw [show y * rb + x / 8 = x / 8 + rb * y by ring]
    rw [Nat.add_mul_mod_self_left, Nat.mod_eq_of_lt hxr]

/-- The bit rule for the raster: bit `7 - x%8` of the byte at flat index
`y*rowBytes + x/8` is set exactly when pixel `(x, y)` is dark. -/
theorem escposRaster_testBit (img : Image) (x y : Nat)
    (hx : x < effectiveWidth img) (hy : y < img.height) :
    (((escposRaster img).getD (y * (effectiveWidth img / 8) + x / 8) 0).testBit
        (7 - x % 8) = true)
      ↔ sumRGB (img.px x y) < 3 * 0x8000 := by
  rw [escposRaster_getD img x y hx hy]
  unfold rasterByte
  rw [packRow_testBit _ (x % 8) (Nat.mod_lt x (by norm_num))]
  rw [Nat.div_add_mod x 8]
  exact isDark_iff _

/-- A concrete checkerboard bitmap (8×1): black/white alternating pixels. -/
def checkerImg : Image where
  width := 8
  height := 1
  px := fun x y => if (x + y) % 2 = 0 then ⟨0, 0, 0⟩ else ⟨0xFFFF, 0xFFFF, 0xFFFF⟩

/-- A concrete thermal printer record. -/
def printerA : Printer :=
  ⟨"Kitchen", "192.168.1.60", 9100, "Thermal Printer", true, 1, 1, "key1", "thermal", 576⟩

/-- C1: for every decoded bitmap sent down the thermal path, the byte
stream transmitted to the printer is exactly: reset `1B 40`; raster header
`1D 76 30 00` with the row-byte count (48) and the pixel-row count as
16-bit little-endian values; then exactly `ceil(width/8)*height` raster
bytes packing 8 horizontal pixels per byte MSB-first, a bit set exactly
when the pixel's R,G,B average is below the midpoint of the channel range;
then feed `1B 64 03`; then partial cut `1D 56 41 00`.  (Width and height
are those of the bitmap fed to the conversion, i.e. after the resize to
the fixed raster width 384.) -/
theorem thermal_wire_protocol (p : Printer) (img : Image)
    (_hw : 0 < img.width) (hH : (resizeToWidth img 384).height < 65536) :
    sendToThermalPrinterBytes p img =
      [0x1B, 0x40] ++
      ([0x1D, 0x76, 0x30, 0x00] ++ [48, 0] ++
        [(resizeToWidth img 384).height % 256, (resizeToWidth img 384).height / 256] ++
        escposRaster (resizeToWidth img 384)) ++
      [0x1B, 0x64, 0x03] ++ [0x1D, 0x56, 0x41, 0x00] ∧
    (escposRaster (resizeToWidth img 384)).length
      = ((resizeToWidth img 384).width + 7) / 8 * (resizeToWidth img 384).height ∧
    ∀ x y, x < (resizeToWidth img 384).width → y < (resizeToWidth img 384).height →
      ((((escposRaster (resizeToWidth img 384)).getD (y * 48 + x / 8) 0).testBit
          (7 - x % 8) = true)
        ↔ sumRGB ((resizeToWidth img 384).px x y) < 3 * 0x8000) := by
  have hwid : (resizeToWidth img 384).width = 384 := rfl
  have heff : effectiveWidth (resizeToWidth img 384) = 384 := by
    unfold effectiveWidth
    rw [hwid]
    norm_num
  have hrb : effectiveWidth (resizeToWidth img 384) / 8 = 48 := by rw [heff]
  refine ⟨?_, ?_, ?_⟩
  · have hhdr : escposHeader 48 (resizeToWidth img 384).height
        = [0x1D, 0x76, 0x30, 0x00, 48, 0, (resizeToWidth img 384).height % 256,
           (resizeToWidth img 384).height / 256] := by
      unfold escposHeader
      have h1 : (48 : Nat) % 256 = 48 := by norm_num
      have h2 : ((48 : Nat) >>> 8) % 256 = 0 := by decide
      have h3 : ((resizeToWidth img 384).height >>> 8) % 256
          = (resizeToWidth img 384).height / 256 := by
        rw [Nat.shiftRight_eq_div_pow]
        show (resizeToWidth img 384).height / 256 % 256 = _
        omega
      rw [h1, h2, h3]
    simp only [sendToThermalPrinterBytes, convertImageToESCPOS, hrb, hhdr]
    simp [List.append_assoc]
  · rw [escposRaster_length, heff, hwid]
  · intro x y hx hy
    have hx' : x < effectiveWidth (resizeToWidth img 384) := by
      rw [heff]
      exact hx
    have h := escposRaster_testBit (resizeToWidth img 384) x y hx' hy
    rw [hrb] at h
    exact h

theorem thermal_wire_protocol_witness :
    0 < checkerImg.width ∧ (resizeToWidth checkerImg 384).height < 65536 ∧
      (escposRaster (resizeToWidth checkerImg 384)).length
        = ((resizeToWidth checkerImg 384).width + 7) / 8
            * (resizeToWidth checkerImg 384).height :=
  ⟨by decide, by decide,
    (thermal_wire_protocol printerA checkerImg (by decide) (by decide)).2.1⟩

/-- C6: for every bitmap whose width is not a multiple of 8, the ESC/POS
conversion truncates the raster width to the next-lower multiple of 8
rather than padding: the effective width is a multiple of 8, strictly
below the bitmap's width, within 8 of it; the raster holds one byte per 8
effective-width pixels per row; and the conversion never consults the
dropped rightmost columns (any bitmap agreeing on `x < effectiveWidth`
converts identically). -/
theorem width_truncated_to_lower_multiple (img : Image) (h8 : img.width % 8 ≠ 0) :
    effectiveWidth img = img.width - img.width % 8 ∧
    8 ∣ effectiveWidth img ∧
    effectiveWidth img < img.width ∧
    img.width < effectiveWidth img + 8 ∧
    (escposRaster img).length = effectiveWidth img / 8 * img.height ∧
    (∀ img' : Image, img'.width = img.width → img'.height = img.height →
      (∀ x y, x < effectiveWidth img → img'.px x y = img.px x y) →
      convertImageToESCPOS img' = convertImageToESCPOS img) := by
  have heq : effectiveWidth img = img.width - img.width % 8 := by
    unfold effectiveWidth
    simp [h8]
  have hmod : img.width % 8 < 8 := Nat.mod_lt _ (by norm_num)
  refine ⟨heq, by omega, by omega, by omega, escposRaster_length img, ?_⟩
  intro img' hw hh hpx
  have heff' : effectiveWidth img' = effectiveWidth img := by
    unfold effectiveWidth
    rw [hw]
  unfold convertImageToESCPOS
  rw [heff', hh]
  congr 1
  unfold escposRaster
  rw [heff', hh]
  rcases Nat.eq_zero_or_pos (effectiveWidth img / 8) with hrb0 | hrbpos
  · rw [hrb0]
    simp
  · apply List.map_congr_left
    intro idx hidx
    rw [List.mem_range] at hidx
    unfold rasterByte
    apply packRow_congr
    intro k hk
    have hj : idx % (effectiveWidth img / 8) < effectiveWidth img / 8 :=
      Nat.mod_lt idx hrbpos
    have hx : 8 * (idx % (effectiveWidth img / 8)) + k < effectiveWidth img := by
      have h8w : 8 * (effectiveWidth img / 8) = effectiveWidth img := by
        have : 8 ∣ effectiveWidth img := by omega
        omega
      omega
    rw [hpx _ _ hx]

/-- A 385×1 all-dark bitmap: width one past a multiple of 8. -/
def img385 : Image where
  width := 385
  height := 1
  px := fun _ _ => ⟨0, 0, 0⟩

theorem width_truncated_to_lower_multiple_witness :
    (385 : Nat) % 8 ≠ 0 ∧ effectiveWidth img385 = 384 ∧
      (escposRaster img385).length = 48 :=
  ⟨by decide,
    by rw [(width_truncated_to_lower_multiple img385 (by decide)).1]; decide,
    by rw [(width_truncated_to_lower_multiple img385 (by decide)).2.2.2.2.1]; decide⟩

/-! ### The thermal-path resize target and the registry size default -/

/-- The resize step of `sendToThermalPrinter`: the code calls
`resizeToWidth(img, 384)` with the constant 384 ("Resize to thermal
printer width (384px standard)"); the printer record is in scope but its
`size` field is not consulted. -/
def thermalResize (_p : Printer) (img : Image) : Image := resizeToWidth img 384

/-- The backward-compatibility default of `utils.SavePrinters`:
`if printer.Size == 0 { printer.Size = 576 }`. -/
def withDefaultSize (p : Printer) : Printer :=
  if p.size = 0 then { p with size := 576 } else p

/-- A 576-pixel-wide all-dark bitmap. -/
def imgWide : Image where
  width := 576
  height := 100
  px := fun _ _ => ⟨0, 0, 0⟩

/-- C5 counterexample: for a printer whose registry record carries
`size = 576`, the thermal path still resizes the bitmap to width 384, not
to the printer's configured raster width. -/
theorem thermal_resize_ignores_configured_width :
    printerA.size = 576 ∧ (thermalResize printerA imgWide).width = 384 ∧
      (384 : Int) ≠ 576 := by
  refine ⟨rfl, rfl, by decide⟩

/-- C5 amended: before the 1-bit conversion the thermal path resizes the
bitmap with nearest-neighbor sampling, preserving aspect ratio (height
scaled by the same factor, floor), to the FIXED width 384 — independent
of the printer record; the default raster width 576 is applied by the
registry code to records lacking one but is never consulted here. -/
theorem thermal_resize_fixed_width (p : Printer) (img : Image) (_hw : 0 < img.width) :
    (thermalResize p img).width = 384 ∧
    (thermalResize p img).height = img.height * 384 / img.width ∧
    (∀ x y, (thermalResize p img).px x y
        = img.px (x * img.width / 384) (y * img.width / 384)) ∧
    (∀ q : Printer, thermalResize q img = thermalResize p img) ∧
    (∀ r : Printer, r.size = 0 → (withDefaultSize r).size = 576) := by
  refine ⟨rfl, rfl, fun x y => rfl, fun q => rfl, ?_⟩
  intro r hr
  simp [withDefaultSize, hr]

theorem thermal_resize_fixed_width_witness :
    0 < imgWide.width ∧ (thermalResize printerA imgWide).height
      = imgWide.height * 384 / imgWide.width :=
  ⟨by decide, (thermal_resize_fixed_width printerA imgWide (by decide)).2.1⟩

/-! ### Registry merge (`utils.SavePrinters`) -/

/-- The merge performed by `utils.SavePrinters`: the existing records are
kept verbatim (the size default is applied only to the copies placed in
the lookup map, which is discarded); an incoming printer is appended,
with the size default applied, exactly when its IP is absent from the
ORIGINAL existing records — the lookup map is not extended while
appending. -/
def savePrinters (existing incoming : List Printer) : List Printer :=
  existing ++
    (incoming.filter (fun p => !existing.any (fun q => q.ip == p.ip))).map withDefaultSize

theorem withDefaultSize_ip (p : Printer) : (withDefaultSize p).ip = p.ip := by
  unfold withDefaultSize
  split <;> rfl

def printerDup1 : Printer := ⟨"A", "10.0.0.9", 9100, "", true, 1, 1, "", "thermal", 1⟩

def printerDup2 : Printer := ⟨"B", "10.0.0.9", 9100, "", true, 1, 1, "", "thermal", 2⟩

/-- C3 counterexample: an incoming batch holding two printers with the
same (previously unknown) IP gets BOTH appended, so the registry ends up
with two records for one IP — the merge dedups only against the records
that existed before the call. -/
theorem savePrinters_duplicate_incoming_ips :
    ((savePrinters [] [printerDup1, printerDup2]).map Printer.ip)
        = ["10.0.0.9", "10.0.0.9"] ∧
      ¬ ((savePrinters [] [printerDup1, printerDup2]).map Printer.ip).Nodup := by
  refine ⟨rfl, by decide⟩

/-- C3 amended: the merge is keyed by IP — an incoming printer whose IP
already exists in the registry is dropped and the existing records are
left unchanged in place (hence merging the same incoming set again is
idempotent), while an incoming printer with a new IP is appended; the
at-most-one-printer-per-IP invariant holds after the merge provided the
prior registry and the incoming batch are each free of duplicate IPs
(the code does not dedup within a single incoming batch). -/
theorem savePrinters_merge (existing incoming : List Printer) :
    (savePrinters existing incoming).take existing.length = existing ∧
    savePrinters (savePrinters existing incoming) incoming
      = savePrinters existing incoming ∧
    (∀ p ∈ incoming, (∀ q ∈ existing, q.ip ≠ p.ip) →
      withDefaultSize p ∈ savePrinters existing incoming) ∧
    ((existing.map Printer.ip).Nodup → (incoming.map Printer.ip).Nodup →
      ((savePrinters existing incoming).map Printer.ip).Nodup) := by
  refine ⟨?_, ?_, ?_, ?_⟩
  · unfold savePrinters
    exact List.take_left _ _
  · unfold savePrinters
    have hnil :
        (incoming.filter (fun p =>
          !(existing ++ (incoming.filter
              (fun p => !existing.any (fun q => q.ip == p.ip))).map withDefaultSize).any
            (fun q => q.ip == p.ip))) = [] := by
      rw [List.filter_eq_nil_iff]
      intro p hp
      simp only [Bool.not_eq_true', Bool.not_eq_false, List.any_append, Bool.or_eq_true,
        List.any_eq_true]
      by_cases hex : ∃ q ∈ existing, (q.ip == p.ip) = true
      · exact Or.inl hex
      · refine Or.inr ⟨withDefaultSize p, ?_, ?_⟩
        · refine List.mem_map_of_mem _ (List.mem_filter.mpr ⟨hp, ?_⟩)
          simp only [Bool.not_eq_true', List.any_eq_false]
          intro q hq
          by_contra hc
          exact hex ⟨q, hq, by simpa using hc⟩
        · rw [withDefaultSize_ip]
          exact beq_self_eq_true _
    rw [hnil]
    simp
  · intro p hp hnone
    unfold savePrinters
    refine List.mem_append_right _ (List.mem_map_of_mem _ (List.mem_filter.mpr ⟨hp, ?_⟩))
    simp only [Bool.not_eq_true', List.any_eq_false]
    intro q hq
    simpa using hnone q hq
  · intro hex hinc
    unfold savePrinters
    rw [List.map_append]
    refine List.Nodup.append hex ?_ ?_
    · rw [List.map_map]
      have : (Printer.ip ∘ withDefaultSize) = Printer.ip := by
        funext q
        exact withDefaultSize_ip q
      rw [this]
      exact hinc.sublist ((List.filter_sublist _).map _)
    · intro a ha hb
      rw [List.map_map] at hb
      obtain ⟨q, hq, hqa⟩ := List.mem_map.mp hb
      have hqf := List.mem_filter.mp hq
      have : (existing.any (fun r => r.ip == q.ip)) = false := by
        simpa using hqf.2
      rw [List.any_eq_false] at this
      obtain ⟨r, hr, hra⟩ := List.mem_map.mp ha
      have := this r hr
      apply this
      rw [Function.comp_apply, withDefaultSize_ip] at hqa
      rw [hra, hqa]
      exact beq_self_eq_true _

theorem savePrinters_merge_witness :
    (printerDup2 ∈ [printerDup2] ∧ (∀ q ∈ ([] : List Printer), q.ip ≠ printerDup2.ip)) ∧
      withDefaultSize printerDup2 ∈ savePrinters [] [printerDup2] :=
  ⟨⟨by decide, by intro q hq; cases hq⟩,
    (savePrinters_merge [] [printerDup2]).2.2.1 printerDup2 (by decide)
      (by intro q hq; cases hq)⟩

/-! ### Printer-type dispatch (`sendFileToPrinter`) -/

/-- The route chosen by `sendFileToPrinter`: raw-socket ESC/POS path,
system print-spooler path, or rejection with an error (no transmission
attempted). -/
inductive PrintRoute where
  | thermal
  | system
  | unsupported (msg : String)
deriving DecidableEq, Repr

/-!
`strings.ToLower` and `strings.TrimSpace` are Go-standard-library
collaborators: their Unicode case-mapping and White_Space tables (which
for example lower U+0130 to ASCII `i` and trim U+00A0) live outside this
repository.  The dispatch model therefore takes the two library
functions as abstract parameters; the dispatch theorem assumes of them
only the three fixpoint facts `toLower (trimSpace c) = c` for the
already-lowercase, whitespace-free canonical literals `"thermal"`,
`"inkjet"` and `"laser"` — facts Go's functions satisfy.  The ASCII pair
`asciiTrimSpace`/`asciiToLower` below agrees with the Go functions on
ASCII data and serves to instantiate the parameters in the concrete
witness.
-/

/-- ASCII trim: drop leading and trailing ASCII whitespace.  Agrees with
`strings.TrimSpace` on ASCII data; used only to instantiate the abstract
`trimSpace` parameter at concrete ASCII inputs. -/
def asciiTrimSpace (s : String) : String :=
  ⟨((s.data.dropWhile Char.isWhitespace).reverse.dropWhile Char.isWhitespace).reverse⟩

/-- ASCII case mapping.  Agrees with `strings.ToLower` on ASCII data;
used only to instantiate the abstract `toLower` parameter at concrete
ASCII inputs. -/
def asciiToLower (s : String) : String :=
  ⟨s.data.map Char.toLower⟩

/-- `sendFileToPrinter`'s dispatch on the printer type:
`printerType := strings.ToLower(strings.TrimSpace(p.Type))`, then
`thermal` → thermal path; `inkjet`, `laser` → system spooler; empty
string → thermal (backward compatibility); anything else → error
`unsupported printer type: <p.Type> (must be thermal, inkjet, or laser)`.
`toLower` and `trimSpace` stand for the Go library functions (see the
section comment above). -/
def sendFileToPrinterRoute (toLower trimSpace : String → String) (p : Printer) :
    PrintRoute :=
  let printerType := toLower (trimSpace p.type)
  if printerType = "thermal" then .thermal
  else if printerType = "inkjet" ∨ printerType = "laser" then .system
  else if printerType = "" then .thermal
  else .unsupported
    ("unsupported printer type: " ++ p.type ++ " (must be thermal, inkjet, or laser)")

/-- C10: the dispatch normalizes the type with `strings.TrimSpace` and
`strings.ToLower` before matching — a type the library normalizes to a
canonical value routes exactly as that canonical value; the
normalized-empty type takes the thermal path; every type the library
normalizes to anything else is rejected as unsupported, with no
transmission path chosen.  Stated for every pair of library functions
satisfying the canonical fixpoint facts, which Go's `strings.ToLower` /
`strings.TrimSpace` do. -/
theorem printer_type_dispatch (toLower trimSpace : String → String)
    (hthermal : toLower (trimSpace "thermal") = "thermal")
    (hinkjet : toLower (trimSpace "inkjet") = "inkjet")
    (hlaser : toLower (trimSpace "laser") = "laser")
    (p : Printer) :
    (∀ c, (c = "thermal" ∨ c = "inkjet" ∨ c = "laser") →
      toLower (trimSpace p.type) = c →
      sendFileToPrinterRoute toLower trimSpace p
        = sendFileToPrinterRoute toLower trimSpace { p with type := c }) ∧
    (toLower (trimSpace p.type) = "" →
      sendFileToPrinterRoute toLower trimSpace p = .thermal) ∧
    (toLower (trimSpace p.type) ∉ (["thermal", "inkjet", "laser", ""] : List String) →
      sendFileToPrinterRoute toLower trimSpace p =
        .unsupported ("unsupported printer type: " ++ p.type
          ++ " (must be thermal, inkjet, or laser)")) := by
  refine ⟨?_, ?_, ?_⟩
  · intro c hc hnorm
    unfold sendFileToPrinterRoute
    rcases hc with h | h | h <;> subst h <;> rw [hnorm]
    · rw [hthermal]
      simp
    · rw [hinkjet]
      simp
    · rw [hlaser]
      simp
  · intro hnorm
    unfold sendFileToPrinterRoute
    rw [hnorm]
    simp
  · intro hnot
    simp only [List.mem_cons, List.not_mem_nil, or_false, not_or] at hnot
    unfold sendFileToPrinterRoute
    simp only [if_neg hnot.1, if_neg (not_or.mpr ⟨hnot.2.1, hnot.2.2.1⟩),
      if_neg hnot.2.2.2]

/-- A printer whose type differs from `thermal` only in case and
surrounding whitespace. -/
def printerSpacey : Printer :=
  ⟨"Bar", "192.168.1.61", 9100, "", true, 1, 1, "key2", "  Thermal ", 384⟩

/-- A printer with an unsupported type string. -/
def printerOdd : Printer :=
  ⟨"Odd", "192.168.1.62", 9100, "", true, 1, 1, "key3", "dot-matrix", 384⟩

theorem printer_type_dispatch_witness :
    (asciiToLower (asciiTrimSpace "thermal") = "thermal" ∧
      asciiToLower (asciiTrimSpace "inkjet") = "inkjet" ∧
      asciiToLower (asciiTrimSpace "laser") = "laser") ∧
    (asciiToLower (asciiTrimSpace printerSpacey.type) = "thermal" ∧
      sendFileToPrinterRoute asciiToLower asciiTrimSpace printerSpacey
        = sendFileToPrinterRoute asciiToLower asciiTrimSpace
            { printerSpacey with type := "thermal" }) ∧
    (asciiToLower (asciiTrimSpace printerOdd.type)
        ∉ (["thermal", "inkjet", "laser", ""] : List String) ∧
      sendFileToPrinterRoute asciiToLower asciiTrimSpace printerOdd =
        .unsupported ("unsupported printer type: " ++ printerOdd.type
          ++ " (must be thermal, inkjet, or laser)")) :=
  ⟨⟨by decide, by decide, by decide⟩,
   ⟨by decide,
    (printer_type_dispatch asciiToLower asciiTrimSpace (by decide) (by decide)
        (by decide) printerSpacey).1 "thermal" (Or.inl rfl) (by decide)⟩,
   ⟨by decide,
    (printer_type_dispatch asciiToLower asciiTrimSpace (by decide) (by decide)
        (by decide) printerOdd).2.2 (by decide)⟩⟩

/-! ### The job dispatcher (`handlePrintJob`, latest revision) -/

/-- `model.Metadata` (the fields the dispatcher reads). -/
structure Metadata where
  orderId : Int
deriving DecidableEq, Repr

/-- `model.PrinterData`: the renderable HTML content, the requested
number of copies and the job metadata. -/
structure PrinterData where
  content : String
  copies : Int
  metadata : Metadata
deriving DecidableEq, Repr

/-- `model.OrderPayload` (latest revision). -/
structure OrderPayload where
  success : Bool
  data : PrinterData
deriving DecidableEq, Repr

/-- The observable actions of one `handlePrintJob` run: invoking the
renderer (`generateOrderImage`), one transmission attempt
(`sendFileToPrinter`, 0-based index), and the WebSocket result messages
written back on the session. -/
inductive DispatchEvent where
  | renderAttempt
  | txAttempt (i : Nat)
  | sentPrintFailed (err : String)
  | sentPrinted
deriving DecidableEq, Repr

/-- The copies loop of `handlePrintJob`:
`for i := 0; i < copies; i++ { if err := sendFileToPrinter(...); err != nil
{ success = false; send print_failed; break } }`.  `sink i = some e` means
the `i`-th transmission attempt fails with error text `e`; `none` means it
succeeds.  Returns the events of the loop and the final `success` flag. -/
def copiesLoop (sink : Nat → Option String) : Nat → Nat → List DispatchEvent × Bool
  | _, 0 => ([], true)
  | i, n + 1 =>
    match sink i with
    | none =>
      let r := copiesLoop sink (i + 1) n
      (.txAttempt i :: r.1, r.2)
    | some e => ([.txAttempt i, .sentPrintFailed e], false)

/-- The number of copies actually attempted:
`copies := payload.Data.Copies; if copies < 1 { copies = 1 }`. -/
def normCopies (copies : Int) : Int := if copies < 1 then 1 else copies

/-- `handlePrintJob` (latest revision), after the JSON parse: empty
content is rejected up front (only logged — the function returns without
rendering, transmitting or writing any message); otherwise the renderer
runs (`render = some e` models a render failure with error `e`, reported
as `print_failed`), then the copies loop, and a single `printed` message
exactly when the `success` flag survived the loop. -/
def handlePrintJob (payload : OrderPayload) (render : Option String)
    (sink : Nat → Option String) : List DispatchEvent :=
  if payload.data.content = "" then []
  else
    .renderAttempt ::
      match render with
      | some e => [.sentPrintFailed e]
      | none =>
        let r := copiesLoop sink 0 (normCopies payload.data.copies).toNat
        if r.2 then r.1 ++ [.sentPrinted] else r.1

/-- Is the event a transmission attempt? -/
def isTx : DispatchEvent → Bool
  | .txAttempt _ => true
  | _ => false

/-- Is the event a result message written back on the session? -/
def isResultMsg : DispatchEvent → Bool
  | .sentPrinted => true
  | .sentPrintFailed _ => true
  | _ => false

theorem normCopies_eq_max (c : Int) : normCopies c = max 1 c := by
  unfold normCopies
  split <;> omega

/-- When every attempt up to `n` succeeds, the copies loop performs
exactly the `n` transmission attempts `i, i+1, …` and keeps `success`. -/
theorem copiesLoop_all_ok (sink : Nat → Option String) :
    ∀ n i, (∀ k, k < n → sink (i + k) = none) →
      copiesLoop sink i n = ((List.range' i n).map .txAttempt, true) := by
  intro n
  induction n with
  | zero => intro i _; rfl
  | succ m ih =>
    intro i h
    have h0 : sink i = none := by simpa using h 0 (by omega)
    have hrest : ∀ k, k < m → sink (i + 1 + k) = none := by
      intro k hk
      have := h (k + 1) (by omega)
      rwa [show i + (k + 1) = i + 1 + k by omega] at this
    unfold copiesLoop
    rw [h0, ih (i + 1) hrest, List.range'_succ]
    rfl

/-- When the attempt at offset `j` is the first to fail, the loop makes
the attempts `i, …, i+j`, emits one `print_failed` with the error text,
and clears `success` (the remaining copies are aborted). -/
theorem copiesLoop_first_fail (sink : Nat → Option String) :
    ∀ j n i e, j < n → sink (i + j) = some e → (∀ k, k < j → sink (i + k) = none) →
      copiesLoop sink i n
        = ((List.range' i j).map .txAttempt
            ++ [.txAttempt (i + j), .sentPrintFailed e], false) := by
  intro j
  induction j with
  | zero =>
    intro n i e hj hf _
    obtain ⟨m, rfl⟩ : ∃ m, n = m + 1 := ⟨n - 1, by omega⟩
    unfold copiesLoop
    rw [show i + 0 = i by omega] at hf
    rw [hf]
    rfl
  | succ j ih =>
    intro n i e hj hf hok
    obtain ⟨m, rfl⟩ : ∃ m, n = m + 1 := ⟨n - 1, by omega⟩
    have h0 : sink i = none := by simpa using hok 0 (by omega)
    have hf' : sink (i + 1 + j) = some e := by
      rwa [show i + (j + 1) = i + 1 + j by omega] at hf
    have hok' : ∀ k, k < j → sink (i + 1 + k) = none := by
      intro k hk
      have := hok (k + 1) (by omega)
      rwa [show i + (k + 1) = i + 1 + k by omega] at this
    unfold copiesLoop
    rw [h0, ih m (i + 1) e (by omega) hf' hok', List.range'_succ]
    simp [show i + (j + 1) = i + 1 + j by omega]

theorem countP_isTx_map_tx (l : List Nat) :
    List.countP isTx (l.map DispatchEvent.txAttempt) = l.length := by
  induction l with
  | nil => rfl
  | cons a t ih => simp [List.countP_cons, isTx, ih]

theorem countP_comp_isTx_tx (l : List Nat) :
    List.countP (isTx ∘ DispatchEvent.txAttempt) l = l.length := by
  induction l with
  | nil => rfl
  | cons a t ih => simp [List.countP_cons, isTx, Function.comp, ih]

theorem filter_isResultMsg_map_tx (l : List Nat) :
    List.filter isResultMsg (l.map DispatchEvent.txAttempt) = [] := by
  induction l with
  | nil => rfl
  | cons a t ih => simp [List.filter_cons, isResultMsg, ih]

/-- C2: for a dispatched job (nonempty content, render succeeded), if all
attempts succeed the loop makes exactly `max(1, copies)` transmission
attempts and emits exactly one `printed` result; if the `k`-th attempt is
the first to fail with error `e`, exactly `k` attempts are made, one
`print_failed` carrying `e` is emitted, and no `printed` is ever emitted
for the job. -/
theorem copies_then_result (payload : OrderPayload) (sink : Nat → Option String)
    (hc : payload.data.content ≠ "") :
    normCopies payload.data.copies = max 1 payload.data.copies ∧
    ((∀ k, k < (max 1 payload.data.copies).toNat → sink k = none) →
      (handlePrintJob payload none sink).countP isTx
          = (max 1 payload.data.copies).toNat ∧
        (handlePrintJob payload none sink).filter isResultMsg = [.sentPrinted]) ∧
    (∀ k e, 1 ≤ k → k ≤ (max 1 payload.data.copies).toNat →
      sink (k - 1) = some e → (∀ j, j < k - 1 → sink j = none) →
      (handlePrintJob payload none sink).countP isTx = k ∧
        (handlePrintJob payload none sink).filter isResultMsg
          = [.sentPrintFailed e]) := by
  have hunfold : handlePrintJob payload none sink =
      .renderAttempt ::
        (if (copiesLoop sink 0 (normCopies payload.data.copies).toNat).2 then
          (copiesLoop sink 0 (normCopies payload.data.copies).toNat).1 ++ [.sentPrinted]
        else (copiesLoop sink 0 (normCopies payload.data.copies).toNat).1) := by
    unfold handlePrintJob
    rw [if_neg hc]
  refine ⟨normCopies_eq_max _, ?_, ?_⟩
  · intro hok
    have hloop := copiesLoop_all_ok sink (max 1 payload.data.copies).toNat 0
      (by intro k hk; simpa using hok k hk)
    rw [hunfold, normCopies_eq_max, hloop]
    constructor
    · simp [List.countP_cons, List.countP_append, countP_comp_isTx_tx, isTx,
        List.length_range']
    · simp [List.filter_cons, List.filter_append, filter_isResultMsg_map_tx,
        isResultMsg]
  · intro k e hk1 hkN hfail hok
    have hloop := copiesLoop_first_fail sink (k - 1)
      (max 1 payload.data.copies).toNat 0 e (by omega)
      (by simpa using hfail) (by intro j hj; simpa using hok j hj)
    rw [hunfold, normCopies_eq_max, hloop]
    constructor
    · simp [List.countP_cons, List.countP_append, countP_comp_isTx_tx, isTx,
        List.length_range']
      omega
    · simp [List.filter_cons, List.filter_append, filter_isResultMsg_map_tx,
        isResultMsg, isTx]

/-- A concrete three-copy job. -/
def payload3 : OrderPayload := ⟨true, ⟨"<html>order</html>", 3, ⟨41⟩⟩⟩

/-- A sink that accepts every transmission. -/
def sinkOK : Nat → Option String := fun _ => none

/-- A sink whose second transmission attempt fails. -/
def sinkFail2 : Nat → Option String := fun i => if i = 1 then some "boom" else none

theorem copies_then_result_witness :
    payload3.data.content ≠ "" ∧
    (handlePrintJob payload3 none sinkOK).countP isTx = 3 ∧
    (handlePrintJob payload3 none sinkOK).filter isResultMsg = [.sentPrinted] ∧
    (handlePrintJob payload3 none sinkFail2).countP isTx = 2 ∧
    (handlePrintJob payload3 none sinkFail2).filter isResultMsg
      = [.sentPrintFailed "boom"] := by
  have hok := (copies_then_result payload3 sinkOK (by decide)).2.1 (by decide)
  have hfail := (copies_then_result payload3 sinkFail2 (by decide)).2.2 2 "boom"
    (by decide) (by decide) (by decide) (by decide)
  exact ⟨by decide, hok.1, hok.2, hfail.1, hfail.2⟩

/-- A print_order payload with empty renderable content. -/
def payloadEmpty : OrderPayload := ⟨true, ⟨"", 1, ⟨7⟩⟩⟩

/-- C4 counterexample: a job with empty content produces NO events at
all — in particular no `print_failed` message is written back on the
session; the code only logs "Received empty content, skipping." and
returns. -/
theorem empty_content_counterexample :
    handlePrintJob payloadEmpty none sinkOK = [] ∧
      (handlePrintJob payloadEmpty none sinkOK).filter isResultMsg = [] :=
  ⟨rfl, rfl⟩

/-- C4 amended: a print_order whose renderable content is empty is
rejected before any rendering or transmission is attempted, but the
rejection is only logged locally — no message (in particular no
`print_failed`) is sent upstream. -/
theorem empty_content_rejected (payload : OrderPayload) (render : Option String)
    (sink : Nat → Option String) (h : payload.data.content = "") :
    handlePrintJob payload render sink = [] := by
  unfold handlePrintJob
  rw [if_pos h]

theorem empty_content_rejected_witness :
    payloadEmpty.data.content = "" ∧
      handlePrintJob payloadEmpty (some "render broke") sinkFail2 = [] :=
  ⟨rfl, empty_content_rejected payloadEmpty (some "render broke") sinkFail2 rfl⟩

/-! ### The WebSocket session loop (`RunAgent` / `handleConnection`,
`internal/services/ws.go`) -/

/-- The session-client state of the spec's state machine, as realised by
the control flow of `handleConnection`: inside the read loop before a
`registered` acknowledgement (awaiting ack) or after one (active);
`disconnected` between connections. -/
inductive ClientState where
  | disconnected
  | awaitingAck
  | active
deriving DecidableEq, Repr

/-- A `model.WSMessage` as read from / written to the session. -/
structure WSMsg where
  type : String
  agentKey : String
  error : String
deriving DecidableEq, Repr

/-- One item produced by `conn.ReadJSON` inside the read loop: a decoded
message, or a read error (dropped connection / malformed frame). -/
inductive InItem where
  | msg (m : WSMsg)
  | readError
deriving DecidableEq, Repr

/-- The observable events of the agent loop: a failed dial, a successful
dial, a message written on the session, entering a session state, a
print_order handed to the dispatcher, the end of a connection's read loop
(with the reason: the message type that terminated it, or "read_error"),
and the fixed `time.Sleep` backoff in seconds. -/
inductive AgentEvent where
  | connectFail
  | connected
  | sent (m : WSMsg)
  | enter (s : ClientState)
  | dispatched (m : WSMsg)
  | sessionEnd (reason : String)
  | backoff (secs : Nat)
deriving DecidableEq, Repr

/-- The `switch msg.Type` of `handleConnection`: given the current state
and an inbound message, the next state, the replies written, and whether
the read loop continues.  `registered` logs success (state becomes
active); `ping` answers with a `pong` carrying the credential;
`print_order` hands the job to `handlePrintJob`; `unregister` returns
from the read loop; anything else (the `default` branch) is logged and
ignored. -/
def handleMessage (st : ClientState) (agentKey : String) (m : WSMsg) :
    ClientState × List WSMsg × Bool :=
  if m.type = "registered" then (.active, [], true)
  else if m.type = "ping" then (st, [⟨"pong", agentKey, ""⟩], true)
  else if m.type = "print_order" then (st, [], true)
  else if m.type = "unregister" then (st, [], false)
  else (st, [], true)

/-- The events of the read loop of `handleConnection`: each `ReadJSON`
yields the next inbound item; a read error (or the connection running
out) ends the loop with reason "read_error"; otherwise the message is
handled by `handleMessage` and the loop continues unless it returned
`false` (the `unregister` return). -/
def stepEvents (st : ClientState) (agentKey : String) (m : WSMsg) : List AgentEvent :=
  ((handleMessage st agentKey m).2.1.map AgentEvent.sent)
    ++ (if m.type = "print_order" then [.dispatched m] else [])
    ++ (if (handleMessage st agentKey m).1 = st then []
        else [.enter (handleMessage st agentKey m).1])

def sessionSteps (agentKey : String) : ClientState → List InItem → List AgentEvent
  | _, [] => [.sessionEnd "read_error"]
  | _, .readError :: _ => [.sessionEnd "read_error"]
  | st, .msg m :: rest =>
    if (handleMessage st agentKey m).2.2 then
      stepEvents st agentKey m ++ sessionSteps agentKey (handleMessage st agentKey m).1 rest
    else
      stepEvents st agentKey m ++ [.sessionEnd m.type]

/-- One whole `handleConnection` call: send the `register` message
carrying the printer's credential, await the acknowledgement, then run
the read loop. -/
def sessionTrace (agentKey : String) (items : List InItem) : List AgentEvent :=
  .sent ⟨"register", agentKey, ""⟩ :: .enter .awaitingAck ::
    sessionSteps agentKey .awaitingAck items

/-- One iteration of the outer `for` loop of `RunAgent`, attempt number
`k`: a failed dial logs and sleeps 5 seconds; a successful dial runs
`handleConnection` on that connection's inbound items, closes, and sleeps
the same 5 seconds before reconnecting. -/
def attemptEvents (agentKey : String) (dial : Nat → Bool)
    (sessions : Nat → List InItem) (k : Nat) : List AgentEvent :=
  if dial k then
    .connected :: sessionTrace agentKey (sessions k) ++ [.backoff 5]
  else
    [.connectFail, .backoff 5]

/-- The events of the first `n` iterations of `RunAgent`'s loop (the loop
itself never exits; `agentTrace` is its every finite prefix of whole
iterations). -/
def agentTrace (agentKey : String) (dial : Nat → Bool)
    (sessions : Nat → List InItem) : Nat → List AgentEvent
  | 0 => []
  | n + 1 => agentTrace agentKey dial sessions n ++ attemptEvents agentKey dial sessions n

/-- Every read loop ends: `sessionSteps` always closes with a
`sessionEnd` event. -/
theorem sessionSteps_ends (agentKey : String) :
    ∀ (items : List InItem) (st : ClientState),
      ∃ evs r, sessionSteps agentKey st items = evs ++ [.sessionEnd r] := by
  intro items
  induction items with
  | nil => exact fun st => ⟨[], "read_error", rfl⟩
  | cons it rest ih =>
    intro st
    cases it with
    | readError => exact ⟨[], "read_error", rfl⟩
    | msg m =>
      by_cases hcont : (handleMessage st agentKey m).2.2 = true
      · obtain ⟨evs, r, hr⟩ := ih (handleMessage st agentKey m).1
        refine ⟨stepEvents st agentKey m ++ evs, r, ?_⟩
        unfold sessionSteps
        rw [if_pos hcont, hr, List.append_assoc]
      · refine ⟨stepEvents st agentKey m, m.type, ?_⟩
        unfold sessionSteps
        rw [if_neg hcont]

/-- The number of 5-second backoffs in a trace before the client first
enters the Active state. -/
def backoffsBeforeActive (t : List AgentEvent) : Nat :=
  List.countP (fun e => e == AgentEvent.backoff 5)
    (t.takeWhile (fun e => !(e == AgentEvent.enter .active)))

/-- C7: the per-printer loop never gives up — (1) every iteration `n`
exists and appends that attempt's events (retry is indefinite); (2) a
failed dial produces exactly a connect-failure and a fixed 5-second
backoff, no session events (the client stays disconnected); (3) a
successful dial runs a session that always terminates with a
`sessionEnd` — including the `unregister` reason — followed by the same
5-second backoff before the next attempt; (4) with an endpoint rejecting
the first two attempts and accepting the third, and a server that then
acknowledges registration, the client enters Active after exactly two
backoff waits. -/
theorem session_reconnect_loop (agentKey : String) (dial : Nat → Bool)
    (sessions : Nat → List InItem) :
    (∀ n, agentTrace agentKey dial sessions (n + 1)
        = agentTrace agentKey dial sessions n ++ attemptEvents agentKey dial sessions n ∧
      attemptEvents agentKey dial sessions n ≠ []) ∧
    (∀ k, dial k = false →
      attemptEvents agentKey dial sessions k = [.connectFail, .backoff 5]) ∧
    (∀ k, dial k = true → ∃ evs r,
      attemptEvents agentKey dial sessions k
        = .connected :: .sent ⟨"register", agentKey, ""⟩ :: .enter .awaitingAck ::
            (evs ++ [.sessionEnd r, .backoff 5])) ∧
    (dial 0 = false → dial 1 = false → dial 2 = true →
      ∀ rest, sessions 2 = .msg ⟨"registered", "", ""⟩ :: rest →
        backoffsBeforeActive (agentTrace agentKey dial sessions 3) = 2) := by
  refine ⟨?_, ?_, ?_, ?_⟩
  · intro n
    refine ⟨rfl, ?_⟩
    unfold attemptEvents
    split <;> simp
  · intro k hk
    unfold attemptEvents
    rw [hk]
    rfl
  · intro k hk
    obtain ⟨evs, r, hr⟩ := sessionSteps_ends agentKey (sessions k) .awaitingAck
    refine ⟨evs, r, ?_⟩
    unfold attemptEvents
    rw [if_pos hk]
    unfold sessionTrace
    rw [hr]
    simp
  · intro h0 h1 h2 rest hs
    have hcont : (handleMessage .awaitingAck agentKey ⟨"registered", "", ""⟩).2.2 = true := by
      unfold handleMessage
      simp
    have hst : (handleMessage .awaitingAck agentKey ⟨"registered", "", ""⟩).1 = .active := by
      unfold handleMessage
      simp
    have hse : stepEvents .awaitingAck agentKey ⟨"registered", "", ""⟩ = [.enter .active] := by
      unfold stepEvents handleMessage
      simp
    simp only [agentTrace, attemptEvents]
    rw [h0, h1, h2, hs]
    unfold sessionTrace
    unfold sessionSteps
    rw [if_pos hcont, hse, hst]
    unfold backoffsBeforeActive
    simp only [Bool.false_eq_true, if_false, if_true, List.nil_append,
      List.cons_append, List.append_assoc]
    simp [List.takeWhile_cons, List.countP_cons]

theorem session_reconnect_loop_witness :
    backoffsBeforeActive
      (agentTrace "key1" (fun k => decide (2 ≤ k))
        (fun _ => [.msg ⟨"registered", "", ""⟩]) 3) = 2 :=
  (session_reconnect_loop "key1" (fun k => decide (2 ≤ k))
      (fun _ => [.msg ⟨"registered", "", ""⟩])).2.2.2
    (by decide) (by decide) (by decide) [] rfl

/-- C8: an inbound frame whose type is none of the recognized message
types is logged and ignored — `handleMessage` leaves the state unchanged,
sends no reply and continues the loop; at the trace level the read loop
simply proceeds with the remaining items, producing no event and not
terminating the session. -/
theorem unknown_message_ignored (st : ClientState) (agentKey : String) (m : WSMsg)
    (h : m.type ∉ (["register", "registered", "ping", "pong", "print_order",
      "printed", "print_failed", "unregister"] : List String)) :
    handleMessage st agentKey m = (st, [], true) ∧
    ∀ rest, sessionSteps agentKey st (.msg m :: rest)
      = sessionSteps agentKey st rest := by
  simp only [List.mem_cons, List.not_mem_nil, or_false, not_or] at h
  have hm : handleMessage st agentKey m = (st, [], true) := by
    unfold handleMessage
    rw [if_neg h.2.1, if_neg h.2.2.1, if_neg h.2.2.2.2.1, if_neg h.2.2.2.2.2.2.2]
  have hstep : stepEvents st agentKey m = [] := by
    unfold stepEvents
    rw [hm]
    simp [h.2.2.2.2.1]
  refine ⟨hm, ?_⟩
  intro rest
  conv_lhs => unfold sessionSteps
  rw [hm, hstep]
  simp

theorem unknown_message_ignored_witness :
    (("something_else" : String) ∉ (["register", "registered", "ping", "pong",
      "print_order", "printed", "print_failed", "unregister"] : List String)) ∧
    handleMessage .active "key1" ⟨"something_else", "", ""⟩ = (.active, [], true) :=
  ⟨by decide,
    (unknown_message_ignored .active "key1" ⟨"something_else", "", ""⟩ (by decide)).1⟩

/-! ### Discovery scan (`DiscoverPrinters` + `utils.Probe`) -/

/-- Go's `strings.Split(s, ".")`, specialised to the one-byte "."
separator used by `DiscoverPrinters`, on the character list. -/
def splitDots : List Char → List Char → List (List Char)
  | acc, [] => [acc.reverse]
  | acc, c :: rest =>
    if c = '.' then acc.reverse :: splitDots [] rest
    else splitDots (c :: acc) rest

/-- `parts := strings.Split(localIP, "."); subnet := strings.Join(parts[:3], ".")`. -/
def subnetPrefix (localIP : String) : String :=
  String.intercalate "." (((splitDots [] localIP.data).take 3).map (fun cs => ⟨cs⟩))

/-- The candidate addresses fed to the worker pool:
`for i := 1; i <= 254; i++ { ipChan <- fmt.Sprintf("%s.%d", subnet, i) }` —
all hosts `1 … 254` of the /24, with NO exclusion of the agent's own
address. -/
def candidateIPs (subnet : String) : List String :=
  (List.range' 1 254).map (fun i => subnet ++ "." ++ toString i)

/-- The set of addresses reported on `foundChan`: each of the 50 workers
runs `utils.Probe(ip, 9100)` — a `net.DialTimeout("tcp", ip:9100, 300ms)`
reachability probe — and reports the IP exactly when the connection is
accepted.  The pool reports in nondeterministic order; the reported set
is this filter. -/
def discoverFound (localIP : String) (probe : String → Nat → Bool) : List String :=
  (candidateIPs (subnetPrefix localIP)).filter (fun ip => probe ip 9100)

/-- C9 counterexample: the enumeration does NOT exclude the agent's own
address — a scan from local IP 192.168.1.50 probes 192.168.1.50 itself,
and reports it whenever the probe connection is accepted. -/
theorem discovery_includes_own_address :
    subnetPrefix "192.168.1.50" = "192.168.1" ∧
    "192.168.1.50" ∈ candidateIPs (subnetPrefix "192.168.1.50") ∧
    "192.168.1.50" ∈ discoverFound "192.168.1.50" (fun _ _ => true) := by
  refine ⟨by decide, by decide, by decide⟩

/-- C9 amended: every discovery scan enumerates exactly the host
addresses 1 through 254 of the /24 derived from the local agent's IPv4
address — including (not excluding) the agent's own address — probing
each candidate with the short-timeout TCP connect on port 9100 and
reporting exactly those that accept the connection. -/
theorem discovery_scan (localIP : String) (probe : String → Nat → Bool) :
    (candidateIPs (subnetPrefix localIP)).length = 254 ∧
    (∀ i, 1 ≤ i → i ≤ 254 →
      subnetPrefix localIP ++ "." ++ toString i
        ∈ candidateIPs (subnetPrefix localIP)) ∧
    (∀ c ∈ candidateIPs (subnetPrefix localIP),
      ∃ i, 1 ≤ i ∧ i ≤ 254 ∧ c = subnetPrefix localIP ++ "." ++ toString i) ∧
    (∀ c, c ∈ discoverFound localIP probe ↔
      c ∈ candidateIPs (subnetPrefix localIP) ∧ probe c 9100 = true) := by
  refine ⟨?_, ?_, ?_, ?_⟩
  · simp [candidateIPs]
  · intro i h1 h254
    unfold candidateIPs
    refine List.mem_map_of_mem _ ?_
    rw [List.mem_range']
    exact ⟨i - 1, by omega, by omega⟩
  · intro c hc
    unfold candidateIPs at hc
    obtain ⟨i, hi, rfl⟩ := List.mem_map.mp hc
    rw [List.mem_range'] at hi
    obtain ⟨j, hj, rfl⟩ := hi
    exact ⟨1 + 1 * j, by omega, by omega, rfl⟩
  · intro c
    unfold discoverFound
    rw [List.mem_filter]

theorem discovery_scan_witness :
    ((1 : Nat) ≤ 254 ∧ (254 : Nat) ≤ 254) ∧
      subnetPrefix "192.168.1.50" ++ "." ++ toString (254 : Nat)
        ∈ candidateIPs (subnetPrefix "192.168.1.50") :=
  ⟨⟨by decide, by decide⟩,
    (discovery_scan "192.168.1.50" (fun _ _ => true)).2.1 254 (by decide) (by decide)⟩

end PrintOrders
